import Mathlib

/-!
# Verification of the Rowing-GPX-Analysis core

A shallow embedding of the temporal interpolation engine
(`src/gpx_analysis/sporting.py`) and of the tile/coordinate engine
(`src/gpx_analysis/graph_handler.py`), with theorems settling the spec's
claims about them.

Conventions of the embedding:
* Python floats are modelled as `ℚ` (for values that flow through
  comparisons and exact arithmetic) or as `ℝ` (for values produced by
  transcendental functions, where only control flow matters to the claims).
* A Python exception (`AttributeError` on `None`, `ZeroDivisionError`,
  `IndexError`) is modelled by an `Option`-valued function returning `none`,
  or by an `Except`-valued function returning `.error`.
* Python `dict`s are modelled as insertion-ordered association lists whose
  keys are unique; lookup returns the first (hence only) match.
-/

namespace GpxAnalysis

/-- Modelled from the spec: `gpx_parser.TrackPoint` is not under `src/`.
§3: "immutable sample with `position_degrees: (lat, lon)`,
`relative_time` (seconds from track start), `cadence`". -/
structure TrackPoint where
  position_degrees : ℚ × ℚ
  relative_time : ℚ
  cadence : ℚ
deriving DecidableEq

/-- Modelled from the spec: `gpx_parser.Track` is not under `src/`.
§3: "an ordered, non-empty sequence of TrackPoint, sorted by
`relative_time` ascending".  Non-emptiness and sortedness are stated as
hypotheses of the theorems that need them rather than baked into the type. -/
structure Track where
  points : List TrackPoint
deriving DecidableEq

/-- Modelled from the spec: accessor used by `sporting.py`. -/
def Track.get_track_points (t : Track) : List TrackPoint := t.points

/-- Modelled from the spec: accessor used by `sporting.py`. -/
def TrackPoint.get_relative_time (p : TrackPoint) : ℚ := p.relative_time

/-- Modelled from the spec: accessor used by `sporting.py`. -/
def TrackPoint.get_position_degrees (p : TrackPoint) : ℚ × ℚ := p.position_degrees

/-- Modelled from the spec: accessor used by `sporting.py`. -/
def TrackPoint.get_cadence (p : TrackPoint) : ℚ := p.cadence

/-- Modelled from the spec: `components.geo_distance` is not under `src/`.
§4.1 requires of `great_circle_distance` only that it is "symmetric, zero
iff same point, triangle-inequality-respecting"; its haversine formula is
transcendental and decides none of the claims, so a computable metric with
the three spec'd properties stands in for it. -/
def geo_distance (lat1 lon1 lat2 lon2 : ℚ) : ℚ :=
  |lat2 - lat1| + |lon2 - lon1|

/-- `sporting.map_ranges` (src/gpx_analysis/sporting.py:14-25).
Python float division raises `ZeroDivisionError` when `in_max - in_min`
is zero, modelled as `none`. -/
def map_ranges (value in_min in_max out_min out_max : ℚ) : Option ℚ :=
  if in_max - in_min = 0 then none
  else some ((value - in_min) * (out_max - out_min) / (in_max - in_min) + out_min)

/-- Python list indexing `l[i]`: a negative index counts from the end of
the list; an index that is still out of range raises `IndexError` (`none`). -/
def py_index {α : Type} (l : List α) (i : ℤ) : Option α :=
  if 0 ≤ i then l[i.toNat]?
  else if (-i).toNat ≤ l.length then l[l.length - (-i).toNat]?
  else none

/-- The scan inside `get_surrounding_points_at_time`
(src/gpx_analysis/sporting.py:44-48): index of the first track point whose
`relative_time` strictly exceeds `time`. -/
def first_above (time : ℚ) : List TrackPoint → Option ℕ
  | [] => none
  | p :: rest =>
    if time < p.relative_time then some 0
    else (first_above time rest).map (· + 1)

/-- `sporting.get_surrounding_points_at_time` (src/gpx_analysis/sporting.py:28-50).
When point `i` is the first above, Python returns
`track_points[i-1], track_points[i]`; for `i = 0` the `-1` index wraps to
the last element.  When no point is above, Python returns `(None, None)`. -/
def get_surrounding_points_at_time (track : Track) (time : ℚ) :
    Option TrackPoint × Option TrackPoint :=
  let track_points := track.get_track_points
  match first_above time track_points with
  | some i => (py_index track_points ((i : ℤ) - 1), py_index track_points (i : ℤ))
  | none => (none, none)

/-- `sporting.get_position_at_time` (src/gpx_analysis/sporting.py:53-82).
`track_points[-1]` on an empty list raises `IndexError`; dereferencing a
`None` surrounding point raises `AttributeError`; both are `none`. -/
def get_position_at_time (track : Track) (time : ℚ) : Option (ℚ × ℚ) :=
  match track.get_track_points.getLast? with
  | none => none
  | some last_point =>
    if last_point.get_relative_time ≤ time then some last_point.get_position_degrees
    else
      match get_surrounding_points_at_time track time with
      | (some point_below, some point_above) =>
        match
          map_ranges time point_below.get_relative_time point_above.get_relative_time
            point_below.get_position_degrees.1 point_above.get_position_degrees.1,
          map_ranges time point_below.get_relative_time point_above.get_relative_time
            point_below.get_position_degrees.2 point_above.get_position_degrees.2 with
        | some new_lat, some new_lon => some (new_lat, new_lon)
        | _, _ => none
      | _ => none

/-- `sporting.get_speed_at_time` (src/gpx_analysis/sporting.py:85-117).
Note the guard is strict (`time > last`), unlike the `>=` of
`get_position_at_time`. -/
def get_speed_at_time (track : Track) (time : ℚ) : Option ℚ :=
  match track.get_track_points.getLast? with
  | none => none
  | some last_point =>
    if last_point.get_relative_time < time then some 0
    else
      match get_surrounding_points_at_time track time with
      | (some point_below, some point_above) =>
        let time_delta := point_above.get_relative_time - point_below.get_relative_time
        if time_delta = 0 then none
        else some (geo_distance point_below.get_position_degrees.1
            point_below.get_position_degrees.2
            point_above.get_position_degrees.1
            point_above.get_position_degrees.2 / time_delta)
      | _ => none

/-- Python `round` to the nearest integer, ties to even (banker's rounding). -/
def py_round_int (q : ℚ) : ℤ :=
  let f := ⌊q⌋
  let r := q - (f : ℚ)
  if r < 1 / 2 then f
  else if 1 / 2 < r then f + 1
  else if f % 2 = 0 then f else f + 1

/-- Python `round(x, 1)`. -/
def py_round_1 (q : ℚ) : ℚ := (py_round_int (q * 10) : ℚ) / 10

/-- `sporting.get_cadence_at_time` (src/gpx_analysis/sporting.py:120-147). -/
def get_cadence_at_time (track : Track) (time : ℚ) : Option ℚ :=
  match track.get_track_points.getLast? with
  | none => none
  | some last_point =>
    if last_point.get_relative_time < time then some 0
    else
      match get_surrounding_points_at_time track time with
      | (some point_below, some point_above) =>
        (map_ranges time point_below.get_relative_time point_above.get_relative_time
            point_below.get_cadence point_above.get_cadence).map py_round_1
      | _ => none

/-- A Python runtime value, as far as `convert_speed_units` inspects one. -/
inductive PyVal where
  | float (q : ℚ)
  | int (n : ℤ)
  | str (s : String)
  | pynone
deriving DecidableEq

/-- A Python exception, as raised by `convert_speed_units`. -/
inductive PyError where
  | typeError (msg : String)
  | valueError (msg : String)
  | zeroDivisionError
deriving DecidableEq

/-- `sporting.convert_speed_units` (src/gpx_analysis/sporting.py:203-229).
The textual rendering of a number is abstracted as Lean's `toString`; the
claims only concern which inputs produce a string and which raise.
`500 / speed` raises `ZeroDivisionError` when `speed == 0`. -/
def convert_speed_units (speed : PyVal) (unit : PyVal) : Except PyError String :=
  match speed with
  | .float s =>
    match unit with
    | .str u =>
      if u = "m/s" then .ok (toString s ++ " m/s")
      else if u = "km/h" then .ok (toString (s * 3.6) ++ " km/h")
      else if u = "mph" then .ok (toString (s * 2.237) ++ " mph")
      else if u = "s/500m" then
        if s = 0 then .error .zeroDivisionError
        else
          let total := py_round_1 (500 / s)
          let mins := ⌊total / 60⌋
          let secs := total - 60 * (⌊total / 60⌋ : ℚ)
          .ok (toString mins ++ ":" ++ toString secs ++ " /500m")
      else .error (.valueError "Unit must be one of: m/s, km/h, mph, s/500m")
    | _ => .error (.typeError "Unit must be a string")
  | _ => .error (.typeError "Speed must be a float")

/-! ## Helper lemmas about the bracket search -/

theorem py_index_ofNat {α : Type} (l : List α) (n : ℕ) :
    py_index l (n : ℤ) = l[n]? := by
  simp [py_index]

theorem py_index_neg_one {α : Type} (l : List α) (h : l ≠ []) :
    py_index l (-1) = l.getLast? := by
  have hlen : 0 < l.length := List.length_pos.mpr h
  have h0 : ¬(0 : ℤ) ≤ -1 := by omega
  have h1 : (-(-1 : ℤ)).toNat = 1 := rfl
  simp only [py_index, h0, if_false, h1, List.getLast?_eq_getElem?]
  rw [if_pos (by omega : 1 ≤ l.length)]

theorem first_above_eq_zero {time : ℚ} {p : TrackPoint} (rest : List TrackPoint)
    (h : time < p.relative_time) : first_above time (p :: rest) = some 0 := by
  simp [first_above, h]

theorem first_above_cons_of_le {time : ℚ} {p : TrackPoint} (rest : List TrackPoint)
    (h : ¬time < p.relative_time) :
    first_above time (p :: rest) = (first_above time rest).map (· + 1) := by
  simp [first_above, h]

theorem first_above_exists {time : ℚ} {l : List TrackPoint} {p : TrackPoint}
    (hp : p ∈ l) (h : time < p.relative_time) : ∃ i, first_above time l = some i := by
  induction l with
  | nil => cases hp
  | cons q rest ih =>
    by_cases hq : time < q.relative_time
    · exact ⟨0, first_above_eq_zero rest hq⟩
    · rcases List.mem_cons.mp hp with rfl | hmem
      · exact absurd h hq
      · obtain ⟨j, hj⟩ := ih hmem
        exact ⟨j + 1, by rw [first_above_cons_of_le rest hq, hj]; rfl⟩

theorem first_above_sound {time : ℚ} : ∀ {l : List TrackPoint} {i : ℕ},
    first_above time l = some i → ∃ p, l[i]? = some p ∧ time < p.relative_time := by
  intro l
  induction l with
  | nil => intro i h; simp [first_above] at h
  | cons q rest ih =>
    intro i h
    by_cases hq : time < q.relative_time
    · rw [first_above_eq_zero rest hq] at h
      cases h
      exact ⟨q, by simp, hq⟩
    · rw [first_above_cons_of_le rest hq] at h
      rcases hj : first_above time rest with _ | j
      · rw [hj] at h; cases h
      · rw [hj] at h
        cases h
        obtain ⟨p, hp, hlt⟩ := ih hj
        exact ⟨p, by simpa using hp, hlt⟩

theorem get_surrounding_of_first_above {track : Track} {time : ℚ} {i : ℕ}
    (h : first_above time track.get_track_points = some i) :
    get_surrounding_points_at_time track time =
      (py_index track.get_track_points ((i : ℤ) - 1),
       py_index track.get_track_points (i : ℤ)) := by
  simp [get_surrounding_points_at_time, h]

example : get_speed_at_time ⟨[⟨(0, 0), 0, 30⟩]⟩ 0 = none := by decide

example : get_position_at_time ⟨[⟨(0, 0), 0, 30⟩, ⟨(0, 1/1000), 10, 40⟩]⟩ 5 =
    some (0, 1/2000) := by
  norm_num [get_position_at_time, get_surrounding_points_at_time, first_above, py_index,
    map_ranges, Track.get_track_points, TrackPoint.get_relative_time,
    TrackPoint.get_position_degrees]

example : get_cadence_at_time ⟨[⟨(0, 0), 0, 30⟩, ⟨(0, 1/1000), 10, 40⟩]⟩ 5 =
    some 35 := by
  norm_num [get_cadence_at_time, get_surrounding_points_at_time, first_above, py_index,
    map_ranges, Track.get_track_points, TrackPoint.get_relative_time, TrackPoint.get_cadence,
    py_round_1, py_round_int]

example : convert_speed_units (.float 0) (.str "s/500m") = .error .zeroDivisionError := by
  rfl

/-! ## Claim theorems -/

/-- C2: for every non-empty track, `get_position_at_time` at `t` equal to the
last point's `relative_time` returns exactly the last point's position, and
the same for every `t` beyond it (the `time >= last` guard clamps). -/
theorem position_clamps_at_end (track : Track) (t : ℚ) (last_point : TrackPoint)
    (hlast : track.get_track_points.getLast? = some last_point)
    (ht : last_point.relative_time ≤ t) :
    get_position_at_time track t = some last_point.position_degrees := by
  simp only [get_position_at_time, hlast, TrackPoint.get_relative_time,
    TrackPoint.get_position_degrees]
  rw [if_pos ht]

/-- C2 witness: a concrete one-point track queried at and after its end. -/
theorem position_clamps_at_end_witness :
    get_position_at_time ⟨[⟨(1, 2), 0, 30⟩]⟩ 5 = some (1, 2) ∧
    get_position_at_time ⟨[⟨(1, 2), 0, 30⟩]⟩ 0 = some (1, 2) :=
  ⟨position_clamps_at_end ⟨[⟨(1, 2), 0, 30⟩]⟩ 5 ⟨(1, 2), 0, 30⟩ rfl (by norm_num),
   position_clamps_at_end ⟨[⟨(1, 2), 0, 30⟩]⟩ 0 ⟨(1, 2), 0, 30⟩ rfl (by norm_num)⟩

/-- C1 counterexample: at `t` exactly equal to the final sample's
`relative_time` (so no point's time exceeds `t`), both queries crash on the
`(None, None)` bracket (`AttributeError`, modelled `none`) instead of
returning zero. -/
theorem speed_cadence_at_exact_end_crash :
    get_speed_at_time ⟨[⟨(0, 0), 0, 30⟩]⟩ 0 = none ∧
    get_cadence_at_time ⟨[⟨(0, 0), 0, 30⟩]⟩ 0 = none := by decide

/-- C1 (amended): for every non-empty track and every `t` STRICTLY greater
than every point's `relative_time`, `get_speed_at_time` and
`get_cadence_at_time` return zero; at `t` exactly equal to the final
sample's time the strict guard `time > last` does not fire and both
functions fail on the empty bracket instead. -/
theorem speed_cadence_zero_strictly_after_end (track : Track) (t : ℚ)
    (hne : track.get_track_points ≠ [])
    (hafter : ∀ p ∈ track.get_track_points, p.relative_time < t) :
    get_speed_at_time track t = some 0 ∧ get_cadence_at_time track t = some 0 := by
  rcases hl : track.get_track_points.getLast? with _ | last_point
  · exact absurd (List.getLast?_eq_none_iff.mp hl) hne
  · have hlt := hafter _ (List.mem_of_getLast?_eq_some hl)
    constructor
    · simp only [get_speed_at_time, hl, TrackPoint.get_relative_time]
      rw [if_pos hlt]
    · simp only [get_cadence_at_time, hl, TrackPoint.get_relative_time]
      rw [if_pos hlt]

/-- C1 witness: a concrete two-point track queried after its end. -/
theorem speed_cadence_zero_strictly_after_end_witness :
    get_speed_at_time ⟨[⟨(0, 0), 0, 30⟩, ⟨(0, 1), 10, 40⟩]⟩ 11 = some 0 ∧
    get_cadence_at_time ⟨[⟨(0, 0), 0, 30⟩, ⟨(0, 1), 10, 40⟩]⟩ 11 = some 0 :=
  speed_cadence_zero_strictly_after_end ⟨[⟨(0, 0), 0, 30⟩, ⟨(0, 1), 10, 40⟩]⟩ 11
    (by decide) (by decide)

/-- C7: speed is a step function of the query time — two query times with
the same bracketing pair, both strictly before the final sample's time,
give identical speeds (the speed depends only on the bracket points). -/
theorem speed_step_function (track : Track) (t1 t2 : ℚ) (last_point : TrackPoint)
    (hlast : track.get_track_points.getLast? = some last_point)
    (h1 : t1 < last_point.relative_time) (h2 : t2 < last_point.relative_time)
    (hsame : get_surrounding_points_at_time track t1 =
      get_surrounding_points_at_time track t2) :
    get_speed_at_time track t1 = get_speed_at_time track t2 := by
  simp only [get_speed_at_time, hlast, TrackPoint.get_relative_time]
  rw [if_neg (not_lt.mpr (le_of_lt h1)), if_neg (not_lt.mpr (le_of_lt h2)), hsame]

/-- C7 witness: two query times inside the same bracket of a concrete track. -/
theorem speed_step_function_witness :
    get_speed_at_time ⟨[⟨(0, 0), 0, 30⟩, ⟨(0, 1), 10, 40⟩]⟩ 3 =
    get_speed_at_time ⟨[⟨(0, 0), 0, 30⟩, ⟨(0, 1), 10, 40⟩]⟩ 7 :=
  speed_step_function ⟨[⟨(0, 0), 0, 30⟩, ⟨(0, 1), 10, 40⟩]⟩ 3 7 ⟨(0, 1), 10, 40⟩
    rfl (by norm_num) (by norm_num) (by decide)

/-- C8 counterexample: on a two-point track whose two samples share the same
`relative_time` (ties are allowed by the Track invariant), a query strictly
before the first sample's time does send the bracket search to
(last point, first point), but `get_position_at_time` then raises
`ZeroDivisionError` inside `map_ranges` (modelled `none`) instead of
interpolating. -/
theorem before_start_tied_track_raises :
    get_surrounding_points_at_time ⟨[⟨(0, 0), 5, 0⟩, ⟨(1, 1), 5, 0⟩]⟩ 4 =
      (some ⟨(1, 1), 5, 0⟩, some ⟨(0, 0), 5, 0⟩) ∧
    get_position_at_time ⟨[⟨(0, 0), 5, 0⟩, ⟨(1, 1), 5, 0⟩]⟩ 4 = none := by
  constructor
  · decide
  · norm_num [get_position_at_time, get_surrounding_points_at_time, first_above, py_index,
      map_ranges, Track.get_track_points, TrackPoint.get_relative_time,
      TrackPoint.get_position_degrees]

/-- C8 (amended): for every track with at least two points whose first
sample time is strictly before its last sample time (strictly increasing
times give this), and every query time strictly before the first sample's
time, the bracket search returns below-index `-1`, which Python resolves to
the LAST point, and `get_position_at_time` interpolates between the final
and first samples — no clamp and no error.  When the first and last sample
times coincide, the division by their zero time-delta raises instead (see
the counterexample). -/
theorem before_start_wraps_to_last (track : Track) (t : ℚ) (p0 plast : TrackPoint)
    (hhead : track.get_track_points.head? = some p0)
    (hlast : track.get_track_points.getLast? = some plast)
    (ht : t < p0.relative_time)
    (hlt : p0.relative_time < plast.relative_time) :
    get_surrounding_points_at_time track t = (some plast, some p0) ∧
    get_position_at_time track t = some
      ((t - plast.relative_time) * (p0.position_degrees.1 - plast.position_degrees.1) /
          (p0.relative_time - plast.relative_time) + plast.position_degrees.1,
       (t - plast.relative_time) * (p0.position_degrees.2 - plast.position_degrees.2) /
          (p0.relative_time - plast.relative_time) + plast.position_degrees.2) := by
  have hne : track.get_track_points ≠ [] := by
    intro h
    rw [h] at hhead
    cases hhead
  have hfa : first_above t track.get_track_points = some 0 := by
    cases htp : track.get_track_points with
    | nil => exact absurd htp hne
    | cons q rest =>
      rw [htp] at hhead
      simp only [List.head?_cons, Option.some.injEq] at hhead
      subst hhead
      exact first_above_eq_zero rest ht
  have hsurr : get_surrounding_points_at_time track t = (some plast, some p0) := by
    rw [get_surrounding_of_first_above hfa]
    have hm1 : ((0 : ℕ) : ℤ) - 1 = -1 := by norm_num
    rw [hm1, py_index_neg_one _ hne, hlast]
    rw [py_index_ofNat]
    rw [← List.head?_eq_getElem?, hhead]
  refine ⟨hsurr, ?_⟩
  have hguard : ¬plast.relative_time ≤ t := not_le.mpr (lt_trans ht hlt)
  have hdiv : ¬(p0.relative_time - plast.relative_time = 0) :=
    sub_ne_zero.mpr (ne_of_lt hlt)
  simp only [get_position_at_time, hlast, TrackPoint.get_relative_time, hsurr,
    TrackPoint.get_position_degrees, map_ranges]
  rw [if_neg hguard, if_neg hdiv, if_neg hdiv]

/-- C8 witness: a concrete strictly-increasing two-point track queried
before its start wraps to the last point and interpolates. -/
theorem before_start_wraps_to_last_witness :
    get_surrounding_points_at_time ⟨[⟨(0, 0), 2, 0⟩, ⟨(4, 6), 10, 0⟩]⟩ 1 =
      (some ⟨(4, 6), 10, 0⟩, some ⟨(0, 0), 2, 0⟩) ∧
    get_position_at_time ⟨[⟨(0, 0), 2, 0⟩, ⟨(4, 6), 10, 0⟩]⟩ 1 =
      some (-1/2, -3/4) := by
  have h := before_start_wraps_to_last ⟨[⟨(0, 0), 2, 0⟩, ⟨(4, 6), 10, 0⟩]⟩ 1
    ⟨(0, 0), 2, 0⟩ ⟨(4, 6), 10, 0⟩ rfl rfl (by norm_num) (by norm_num)
  refine ⟨h.1, ?_⟩
  rw [h.2]
  norm_num

/-- Two consecutive entries of a `Chain'`-sorted list are related. -/
theorem chain'_rel_of_consec {α : Type} {R : α → α → Prop} :
    ∀ {l : List α} {j : ℕ} {a b : α}, l.Chain' R →
      l[j]? = some a → l[j + 1]? = some b → R a b := by
  intro l
  induction l with
  | nil =>
    intro j a b _ ha _
    simp at ha
  | cons x rest ih =>
    intro j a b hch ha hb
    rcases List.chain'_cons'.mp hch with ⟨hx, hrest⟩
    cases j with
    | zero =>
      simp only [List.getElem?_cons_zero, Option.some.injEq] at ha
      subst ha
      simp only [List.getElem?_cons_succ] at hb
      exact hx b (by rw [List.head?_eq_getElem?]; exact Option.mem_def.mpr hb)
    | succ k =>
      simp only [List.getElem?_cons_succ] at ha hb
      exact ih hrest ha hb

/-- C10: on a track with strictly increasing `relative_time` values and a
query time `t` with `first ≤ t < last`, all three interpolation queries
return a value (`isSome`).  `none` is exactly how this embedding models the
Python error exits — the `ZeroDivisionError` of the `time_delta` and
`map_ranges` divisors and the `AttributeError`/`IndexError` of an empty
bracket — so this states that none of those divisions sees a zero divisor
under the precondition. -/
theorem no_division_error_within_track (track : Track) (t : ℚ) (p0 plast : TrackPoint)
    (hchain : track.get_track_points.Chain'
      (fun a b => a.relative_time < b.relative_time))
    (hhead : track.get_track_points.head? = some p0)
    (hlast : track.get_track_points.getLast? = some plast)
    (h0 : p0.relative_time ≤ t) (h1 : t < plast.relative_time) :
    (get_position_at_time track t).isSome ∧
    (get_speed_at_time track t).isSome ∧
    (get_cadence_at_time track t).isSome := by
  obtain ⟨i, hfa⟩ := first_above_exists (List.mem_of_getLast?_eq_some hlast) h1
  have hi0 : i ≠ 0 := by
    intro hz
    subst hz
    obtain ⟨p, hp, hlt'⟩ := first_above_sound hfa
    rw [← List.head?_eq_getElem?, hhead] at hp
    cases hp
    exact absurd hlt' (not_lt.mpr h0)
  obtain ⟨j, rfl⟩ := Nat.exists_eq_succ_of_ne_zero hi0
  obtain ⟨pa, hpa, hta⟩ := first_above_sound hfa
  have hjlt : j + 1 < track.get_track_points.length :=
    (List.getElem?_eq_some_iff.mp hpa).1
  have hjlt2 : j < track.get_track_points.length := by omega
  obtain ⟨pb, hpb⟩ : ∃ pb, track.get_track_points[j]? = some pb :=
    ⟨track.get_track_points[j], List.getElem?_eq_some_iff.mpr ⟨hjlt2, rfl⟩⟩
  have hadj : pb.relative_time < pa.relative_time :=
    chain'_rel_of_consec (R := fun a b => a.relative_time < b.relative_time)
      hchain hpb hpa
  have hsurr : get_surrounding_points_at_time track t = (some pb, some pa) := by
    rw [get_surrounding_of_first_above hfa]
    have hc : ((j + 1 : ℕ) : ℤ) - 1 = (j : ℤ) := by push_cast; ring
    rw [hc, py_index_ofNat, py_index_ofNat, hpb, hpa]
  have hg1 : ¬plast.relative_time ≤ t := not_le.mpr h1
  have hg2 : ¬plast.relative_time < t := not_lt.mpr (le_of_lt h1)
  have hdiv : ¬(pa.relative_time - pb.relative_time = 0) :=
    sub_ne_zero.mpr (ne_of_gt hadj)
  refine ⟨?_, ?_, ?_⟩
  · simp only [get_position_at_time, hlast, TrackPoint.get_relative_time, hsurr,
      TrackPoint.get_position_degrees, map_ranges]
    rw [if_neg hg1, if_neg hdiv, if_neg hdiv]
    simp
  · simp only [get_speed_at_time, hlast, TrackPoint.get_relative_time, hsurr,
      TrackPoint.get_position_degrees]
    rw [if_neg hg2, if_neg hdiv]
    simp
  · simp only [get_cadence_at_time, hlast, TrackPoint.get_relative_time, hsurr,
      TrackPoint.get_cadence, map_ranges]
    rw [if_neg hg2, if_neg hdiv]
    simp

/-- C10 witness: a concrete strictly increasing track queried mid-bracket. -/
theorem no_division_error_within_track_witness :
    (get_position_at_time ⟨[⟨(0, 0), 0, 30⟩, ⟨(0, 1), 10, 40⟩]⟩ 5).isSome ∧
    (get_speed_at_time ⟨[⟨(0, 0), 0, 30⟩, ⟨(0, 1), 10, 40⟩]⟩ 5).isSome ∧
    (get_cadence_at_time ⟨[⟨(0, 0), 0, 30⟩, ⟨(0, 1), 10, 40⟩]⟩ 5).isSome :=
  no_division_error_within_track ⟨[⟨(0, 0), 0, 30⟩, ⟨(0, 1), 10, 40⟩]⟩ 5
    ⟨(0, 0), 0, 30⟩ ⟨(0, 1), 10, 40⟩ (by norm_num [List.chain'_cons, Track.get_track_points])
    rfl rfl (by norm_num) (by norm_num)

/-- C3 counterexample: speed `0.0` with unit `s/500m` is a float speed and a
recognized unit, yet the code raises `ZeroDivisionError` at `500 / speed`
instead of returning a formatted string. -/
theorem convert_speed_units_zero_pace_raises :
    convert_speed_units (.float 0) (.str "s/500m") = .error .zeroDivisionError := rfl

/-- C3 (amended): `convert_speed_units` fails with an error exactly on
unrecognized unit strings, non-float speed input, non-string unit input, or
speed `0` with unit `s/500m` (a `ZeroDivisionError` the claim's clean
dichotomy misses); for every float speed and every recognized unit other
than that zero-pace combination it returns the formatted string without
raising. -/
theorem convert_speed_units_errors (s : ℚ) :
    (∀ u : String, (u = "m/s" ∨ u = "km/h" ∨ u = "mph" ∨ u = "s/500m") →
      (s ≠ 0 ∨ u ≠ "s/500m") →
      ∃ txt, convert_speed_units (.float s) (.str u) = .ok txt) ∧
    (∀ u : String, u ≠ "m/s" → u ≠ "km/h" → u ≠ "mph" → u ≠ "s/500m" →
      convert_speed_units (.float s) (.str u) =
        .error (.valueError "Unit must be one of: m/s, km/h, mph, s/500m")) ∧
    (∀ v u : PyVal, (∀ q : ℚ, v ≠ .float q) →
      convert_speed_units v u = .error (.typeError "Speed must be a float")) ∧
    (∀ v : PyVal, (∀ u : String, v ≠ .str u) →
      convert_speed_units (.float s) v = .error (.typeError "Unit must be a string")) ∧
    (convert_speed_units (.float 0) (.str "s/500m") = .error .zeroDivisionError) := by
  refine ⟨?_, ?_, ?_, ?_, rfl⟩
  · intro u hu hz
    rcases hu with rfl | rfl | rfl | rfl
    · exact ⟨_, rfl⟩
    · exact ⟨_, rfl⟩
    · exact ⟨_, rfl⟩
    · rcases hz with hz | hz
      · exact ⟨_, by simp [convert_speed_units, hz]; rfl⟩
      · exact absurd rfl hz
  · intro u h1 h2 h3 h4
    simp [convert_speed_units, h1, h2, h3, h4]
  · intro v u hv
    cases v with
    | float q => exact absurd rfl (hv q)
    | int n => rfl
    | str s2 => rfl
    | pynone => rfl
  · intro v hv
    cases v with
    | float q => rfl
    | int n => rfl
    | str u => exact absurd rfl (hv u)
    | pynone => rfl

/-- C3 witness: the recognized units succeed on a nonzero float speed and an
unknown unit fails. -/
theorem convert_speed_units_errors_witness :
    (∃ txt, convert_speed_units (.float 5) (.str "s/500m") = .ok txt) ∧
    convert_speed_units (.float 5) (.str "knots") =
      .error (.valueError "Unit must be one of: m/s, km/h, mph, s/500m") ∧
    convert_speed_units (.str "fast") (.str "m/s") =
      .error (.typeError "Speed must be a float") :=
  ⟨(convert_speed_units_errors 5).1 "s/500m" (by simp) (by norm_num),
   (convert_speed_units_errors 5).2.1 "knots" (by simp) (by simp) (by simp) (by simp),
   (convert_speed_units_errors 5).2.2.1 (.str "fast") (.str "m/s")
     (fun q => by simp)⟩

/-! ## Tile/coordinate engine: graph_handler.py -/

/-- A map tile image, abstracted to its raw bytes. -/
abbrev Image := List ℕ

/-- Python dict lookup on an insertion-ordered association list with unique
keys: the first (hence only) binding of the key. -/
def dict_lookup {V : Type} (d : List ((ℤ × ℤ) × V)) (k : ℤ × ℤ) : Option V :=
  match d with
  | [] => none
  | kv :: rest => if k = kv.1 then some kv.2 else dict_lookup rest k

/-- `graph_handler.num2deg` (src/gpx_analysis/graph_handler.py:41-55):
slippy tile index to (lat, lon) degrees; floats modelled as exact reals. -/
noncomputable def num2deg (xtile ytile : ℤ) (zoom : ℕ) : ℝ × ℝ :=
  let exp_zoom : ℝ := 2 ^ zoom
  let lon_deg : ℝ := (xtile : ℝ) / exp_zoom * 360 - 180
  let lat_rad : ℝ := Real.arctan (Real.sinh (Real.pi * (1 - 2 * (ytile : ℝ) / exp_zoom)))
  (lat_rad * 180 / Real.pi, lon_deg)

/-- The state of `graph_handler.MapClass`
(src/gpx_analysis/graph_handler.py:127-145), restricted to the fields the
claims touch: `__image_dict` (local/reindexed tiles), `__raw_image_dict`
(raw slippy-map tiles), and the three bounds (NESW tuples, `None` before
they are first computed).  The athlete overlay table plays no part in the
claims. -/
structure MapClass where
  tile_size : ℚ
  image_dict : List ((ℤ × ℤ) × Image)
  raw_image_dict : List ((ℤ × ℤ) × Image)
  gpx_bounds_deg : Option (ℝ × ℝ × ℝ × ℝ)
  tile_bounds_plt : Option (ℚ × ℚ × ℚ × ℚ)
  tile_bounds_deg : Option (ℝ × ℝ × ℝ × ℝ)

/-- `MapClass.__init__` (graph_handler.py:132-145): tile size 50, all dicts
empty, all bounds unset. -/
def MapClass.init : MapClass :=
  { tile_size := 50, image_dict := [], raw_image_dict := [],
    gpx_bounds_deg := none, tile_bounds_plt := none, tile_bounds_deg := none }

/-- The `tile_ind_bounds` tuple of `__set_tile_bounds` / `__reindex_tiles`
(graph_handler.py:245-248 and 269-272): (north, east, south, west) =
(min y, max x, max y, min x) over the raw tile keys; `none` when the key
set is empty (Python `min` would raise there). -/
def tile_ind_bounds (keys : List (ℤ × ℤ)) : Option (ℤ × ℤ × ℤ × ℤ) :=
  match keys with
  | [] => none
  | k :: ks =>
    some ((ks.map Prod.snd).foldl min k.2, (ks.map Prod.fst).foldl max k.1,
      (ks.map Prod.snd).foldl max k.2, (ks.map Prod.fst).foldl min k.1)

/-- `MapClass.__set_tile_bounds` (graph_handler.py:235-256): raises
`ValueError("Image dictionary not set")` on an empty raw tile dict,
otherwise sets `tile_bounds_plt = ((south-north+1)*ts, (east-west+1)*ts,
0, 0)` and the degree bounds from `num2deg` at zoom 17 applied to
`(west, south+1)` and `(east+1, north)`. -/
noncomputable def set_tile_bounds (m : MapClass) : Except String MapClass :=
  match tile_ind_bounds (m.raw_image_dict.map Prod.fst) with
  | none => .error "Image dictionary not set"
  | some b =>
    let bottom_left := num2deg b.2.2.2 (b.2.2.1 + 1) 17
    let top_right := num2deg (b.2.1 + 1) b.1 17
    .ok { m with
      tile_bounds_plt := some (((b.2.2.1 - b.1 + 1 : ℤ) : ℚ) * m.tile_size,
        ((b.2.1 - b.2.2.2 + 1 : ℤ) : ℚ) * m.tile_size, 0, 0),
      tile_bounds_deg := some (top_right.1, top_right.2, bottom_left.1, bottom_left.2) }

/-- `MapClass.__reindex_tiles` (graph_handler.py:258-280): recompute the
bounds (raising on an empty dict), then rebuild the local dict remapping
every raw key `(x, y)` to `(x - west, south - y)`.  The inner `none`
branch is unreachable (`set_tile_bounds` has already raised on an empty
dict) and yields the empty rebuild the loop would produce. -/
noncomputable def reindex_tiles (m : MapClass) : Except String MapClass :=
  match set_tile_bounds m with
  | .error e => .error e
  | .ok m1 =>
    match tile_ind_bounds (m1.raw_image_dict.map Prod.fst) with
    | none => .ok { m1 with image_dict := [] }
    | some b =>
      .ok { m1 with image_dict :=
        m1.raw_image_dict.map (fun kv => ((kv.1.1 - b.2.2.2, b.2.2.1 - kv.1.2), kv.2)) }

/-- The merge loop of `MapClass.__add_images` (graph_handler.py:215-218):
a key already present keeps its value; absent keys are appended in
iteration order. -/
def merge_new_tiles (raw new_tiles : List ((ℤ × ℤ) × Image)) :
    List ((ℤ × ℤ) × Image) :=
  new_tiles.foldl
    (fun acc kv => if (dict_lookup acc kv.1).isSome then acc else acc ++ [kv]) raw

/-- `MapClass.__add_images` (graph_handler.py:208-221): merge the new tiles
into the raw dict, then recalibrate via `__reindex_tiles`. -/
noncomputable def add_images (m : MapClass) (new_tiles : List ((ℤ × ℤ) × Image)) :
    Except String MapClass :=
  reindex_tiles { m with raw_image_dict := merge_new_tiles m.raw_image_dict new_tiles }

/-- `MapClass.degrees_to_graph` (graph_handler.py:470-488): raises
`ValueError` when the gpx bounds or tile degree bounds are unset; the
subscripts on an unset `tile_bounds_plt` would raise `TypeError` (third
branch).  Lean's real division is total; for bounds produced by
`set_tile_bounds` the divisors are nonzero and no claim concerns the
degenerate case, so the division is kept total. -/
noncomputable def degrees_to_graph (m : MapClass) (degrees : ℝ × ℝ) :
    Except String (ℝ × ℝ) :=
  match m.gpx_bounds_deg with
  | none => .error "GPX bounds not set"
  | some _ =>
    match m.tile_bounds_deg with
    | none => .error "Tile bounds not set"
    | some tb =>
      match m.tile_bounds_plt with
      | none => .error "TypeError: tile_bounds_plt is None"
      | some plt =>
        let y_coord := (degrees.1 - tb.2.2.1) / (tb.1 - tb.2.2.1) * ((plt.1 : ℚ) : ℝ)
        let x_coord := (degrees.2 - tb.2.2.2) / (tb.2.1 - tb.2.2.2) * ((plt.2.1 : ℚ) : ℝ)
        .ok (x_coord, y_coord)

/-- Python `max` over the 4-tuple `tile_bounds_plt`. -/
def py_max4 (t : ℚ × ℚ × ℚ × ℚ) : ℚ := max (max t.1 t.2.1) (max t.2.2.1 t.2.2.2)

/-- `MapClass.scale_zoom` (graph_handler.py:312-329): `pow(6.0, x)` is real
exponentiation; calling it before `tile_bounds_plt` is set would raise
`TypeError` inside `max` (`none`). -/
noncomputable def scale_zoom (m : MapClass) (input_value : ℚ) : Option ℝ :=
  match m.tile_bounds_plt with
  | none => none
  | some plt =>
    let smallest_zoom_level : ℝ := 5
    let exp_value : ℝ := (6 : ℝ) ^ ((-2.3 + 3.7 * input_value : ℚ) : ℝ)
    let exp_value_at_0 : ℝ := (6 : ℝ) ^ ((-2.3 + 3.7 * 0 : ℚ) : ℝ)
    let max_map_size := ((py_max4 plt : ℚ) : ℝ) - smallest_zoom_level + exp_value_at_0
    some ((exp_value - exp_value_at_0) * max_map_size + smallest_zoom_level)

/-- C9: `scale_zoom 0` is exactly the fixed 5-pixel minimum margin for
every state with established plot bounds: at input 0 the exponential term
cancels against the `exp_value_at_0` normalizer, leaving
`0 * max_map_size + 5`. -/
theorem scale_zoom_at_zero (m : MapClass) (plt : ℚ × ℚ × ℚ × ℚ)
    (h : m.tile_bounds_plt = some plt) :
    scale_zoom m 0 = some 5 := by
  simp only [scale_zoom, h]
  norm_num

/-- C9 witness: a concrete state with plot bounds set. -/
theorem scale_zoom_at_zero_witness :
    scale_zoom { MapClass.init with tile_bounds_plt := some (100, 50, 0, 0) } 0 =
      some 5 :=
  scale_zoom_at_zero _ (100, 50, 0, 0) rfl

/-- C6: recomputing bounds on an empty raw tile dict fails with
`ValueError("Image dictionary not set")`, directly and through
`__reindex_tiles`; `degrees_to_graph` called before the gpx degree bounds
and the tile degree bounds are both established fails with a `ValueError`;
and under those conditions it never returns a coordinate pair — in
particular never a sentinel like `(0, 0)`. -/
theorem bounds_recompute_and_conversion_errors :
    (∀ m : MapClass, m.raw_image_dict = [] →
      set_tile_bounds m = .error "Image dictionary not set") ∧
    (∀ m : MapClass, m.raw_image_dict = [] →
      reindex_tiles m = .error "Image dictionary not set") ∧
    (∀ (m : MapClass) (p : ℝ × ℝ), m.gpx_bounds_deg = none →
      degrees_to_graph m p = .error "GPX bounds not set") ∧
    (∀ (m : MapClass) (p : ℝ × ℝ) (g : ℝ × ℝ × ℝ × ℝ),
      m.gpx_bounds_deg = some g → m.tile_bounds_deg = none →
      degrees_to_graph m p = .error "Tile bounds not set") ∧
    (∀ (m : MapClass) (p : ℝ × ℝ) (q : ℝ × ℝ),
      m.gpx_bounds_deg = none ∨ m.tile_bounds_deg = none →
      degrees_to_graph m p ≠ .ok q) := by
  have hset : ∀ m : MapClass, m.raw_image_dict = [] →
      set_tile_bounds m = .error "Image dictionary not set" := by
    intro m h
    simp only [set_tile_bounds, h, List.map_nil, tile_ind_bounds]
  have hgpx : ∀ (m : MapClass) (p : ℝ × ℝ), m.gpx_bounds_deg = none →
      degrees_to_graph m p = .error "GPX bounds not set" := by
    intro m p h
    simp only [degrees_to_graph, h]
  have htile : ∀ (m : MapClass) (p : ℝ × ℝ) (g : ℝ × ℝ × ℝ × ℝ),
      m.gpx_bounds_deg = some g → m.tile_bounds_deg = none →
      degrees_to_graph m p = .error "Tile bounds not set" := by
    intro m p g hg ht
    simp only [degrees_to_graph, hg, ht]
  refine ⟨hset, ?_, hgpx, htile, ?_⟩
  · intro m h
    simp only [reindex_tiles, hset m h]
  · intro m p q hcase hok
    rcases hcase with hg | ht
    · rw [hgpx m p hg] at hok
      cases hok
    · rcases hg : m.gpx_bounds_deg with _ | g
      · rw [hgpx m p hg] at hok
        cases hok
      · rw [htile m p g hg ht] at hok
        cases hok

/-! ## Dict-merge lemmas for `__add_images` -/

theorem dict_lookup_append_of_some {V : Type} {d : List ((ℤ × ℤ) × V)}
    {k : ℤ × ℤ} {v : V} (h : dict_lookup d k = some v)
    (d2 : List ((ℤ × ℤ) × V)) : dict_lookup (d ++ d2) k = some v := by
  induction d with
  | nil => simp [dict_lookup] at h
  | cons kv rest ih =>
    rw [List.cons_append]
    simp only [dict_lookup] at h ⊢
    by_cases hk : k = kv.1
    · rwa [if_pos hk] at h ⊢
    · rw [if_neg hk] at h ⊢
      exact ih h

theorem dict_lookup_append_isSome {V : Type} {d d2 : List ((ℤ × ℤ) × V)}
    {k : ℤ × ℤ} (h : (dict_lookup (d ++ d2) k).isSome) :
    (dict_lookup d k).isSome ∨ (dict_lookup d2 k).isSome := by
  induction d with
  | nil => right; simpa using h
  | cons kv rest ih =>
    rw [List.cons_append] at h
    simp only [dict_lookup] at h ⊢
    by_cases hk : k = kv.1
    · rw [if_pos hk] at h ⊢
      exact Or.inl h
    · rw [if_neg hk] at h ⊢
      exact ih h

theorem merge_new_tiles_preserves (new_tiles : List ((ℤ × ℤ) × Image)) :
    ∀ (raw : List ((ℤ × ℤ) × Image)) (k : ℤ × ℤ) (v : Image),
      dict_lookup raw k = some v →
      dict_lookup (merge_new_tiles raw new_tiles) k = some v := by
  induction new_tiles with
  | nil =>
    intro raw k v h
    simpa [merge_new_tiles] using h
  | cons kv rest ih =>
    intro raw k v h
    rw [show merge_new_tiles raw (kv :: rest) = merge_new_tiles
      (if (dict_lookup raw kv.1).isSome then raw else raw ++ [kv]) rest from rfl]
    by_cases hh : (dict_lookup raw kv.1).isSome
    · rw [if_pos hh]
      exact ih raw k v h
    · rw [if_neg hh]
      exact ih (raw ++ [kv]) k v (dict_lookup_append_of_some h [kv])

theorem merge_new_tiles_only_new (new_tiles : List ((ℤ × ℤ) × Image)) :
    ∀ (raw : List ((ℤ × ℤ) × Image)) (k : ℤ × ℤ),
      (dict_lookup (merge_new_tiles raw new_tiles) k).isSome →
      (dict_lookup raw k).isSome ∨ ∃ v, (k, v) ∈ new_tiles := by
  induction new_tiles with
  | nil =>
    intro raw k h
    left
    simpa [merge_new_tiles] using h
  | cons kv rest ih =>
    intro raw k h
    rw [show merge_new_tiles raw (kv :: rest) = merge_new_tiles
      (if (dict_lookup raw kv.1).isSome then raw else raw ++ [kv]) rest from rfl] at h
    rcases ih _ _ h with hacc | ⟨v, hv⟩
    · by_cases hh : (dict_lookup raw kv.1).isSome
      · rw [if_pos hh] at hacc
        exact Or.inl hacc
      · rw [if_neg hh] at hacc
        rcases dict_lookup_append_isSome hacc with h1 | h2
        · exact Or.inl h1
        · right
          refine ⟨kv.2, ?_⟩
          have hk : k = kv.1 := by
            simp only [dict_lookup] at h2
            by_contra hne
            rw [if_neg hne] at h2
            simp [dict_lookup] at h2
          rw [hk]
          exact List.mem_cons_self _ _
    · exact Or.inr ⟨v, List.mem_cons_of_mem _ hv⟩

theorem set_tile_bounds_fields (m : MapClass) :
    ∀ m1, set_tile_bounds m = .ok m1 →
      m1.raw_image_dict = m.raw_image_dict ∧ m1.image_dict = m.image_dict := by
  intro m1 h
  rw [set_tile_bounds] at h
  split at h
  · cases h
  · cases h
    exact ⟨rfl, rfl⟩

theorem reindex_tiles_raw (m : MapClass) :
    ∀ m', reindex_tiles m = .ok m' → m'.raw_image_dict = m.raw_image_dict := by
  intro m' h
  rw [reindex_tiles] at h
  split at h
  · cases h
  · rename_i m1 heq
    split at h
    · cases h
      exact (set_tile_bounds_fields m m1 heq).1
    · cases h
      exact (set_tile_bounds_fields m m1 heq).1

/-- C5: `__add_images` is first-write-wins per key — a key already present
in the raw dict keeps its original image through any `add_images` call
(conjunct 1 on the merge, conjunct 3 tying the merge to the resulting
state's `raw_image_dict`), and only keys not previously present are
inserted (conjunct 2). -/
theorem add_images_first_write_wins :
    (∀ (raw new_tiles : List ((ℤ × ℤ) × Image)) (k : ℤ × ℤ) (v : Image),
      dict_lookup raw k = some v →
      dict_lookup (merge_new_tiles raw new_tiles) k = some v) ∧
    (∀ (raw new_tiles : List ((ℤ × ℤ) × Image)) (k : ℤ × ℤ),
      (dict_lookup (merge_new_tiles raw new_tiles) k).isSome →
      (dict_lookup raw k).isSome ∨ ∃ v, (k, v) ∈ new_tiles) ∧
    (∀ (m : MapClass) (new_tiles : List ((ℤ × ℤ) × Image)) (m' : MapClass),
      add_images m new_tiles = .ok m' →
      m'.raw_image_dict = merge_new_tiles m.raw_image_dict new_tiles) :=
  ⟨fun raw new_tiles k v h => merge_new_tiles_preserves new_tiles raw k v h,
   fun raw new_tiles k h => merge_new_tiles_only_new new_tiles raw k h,
   fun _ _ m' h => reindex_tiles_raw _ m' h⟩

theorem reindex_tiles_image_dict (m : MapClass) (b : ℤ × ℤ × ℤ × ℤ)
    (hb : tile_ind_bounds (m.raw_image_dict.map Prod.fst) = some b) :
    ∀ m', reindex_tiles m = .ok m' →
      m'.image_dict =
        m.raw_image_dict.map (fun kv => ((kv.1.1 - b.2.2.2, b.2.2.1 - kv.1.2), kv.2)) := by
  intro m' h
  rw [reindex_tiles] at h
  split at h
  · cases h
  · rename_i m1 heq
    have hraw : m1.raw_image_dict = m.raw_image_dict :=
      (set_tile_bounds_fields m m1 heq).1
    rw [hraw, hb] at h
    cases h
    rfl

theorem set_tile_bounds_ok (m : MapClass) (b : ℤ × ℤ × ℤ × ℤ)
    (hb : tile_ind_bounds (m.raw_image_dict.map Prod.fst) = some b) :
    ∃ m1, set_tile_bounds m = .ok m1 := by
  rw [set_tile_bounds, hb]
  exact ⟨_, rfl⟩

theorem reindex_tiles_ok_of_bounds (m : MapClass) (b : ℤ × ℤ × ℤ × ℤ)
    (hb : tile_ind_bounds (m.raw_image_dict.map Prod.fst) = some b) :
    ∃ m', reindex_tiles m = .ok m' := by
  obtain ⟨m1, hm1⟩ := set_tile_bounds_ok m b hb
  rcases hr : reindex_tiles m with e | m'
  · exfalso
    rw [reindex_tiles] at hr
    split at hr
    · rename_i e2 heq
      rw [hm1] at heq
      cases heq
    · rename_i m2 heq
      split at hr
      · cases hr
      · cases hr
  · exact ⟨m', rfl⟩

/-- The concrete tile set of the reindex scenario: raw keys (2,3), (4,5). -/
def scenario_map : MapClass :=
  { MapClass.init with raw_image_dict := [((2, 3), [0]), ((4, 5), [1])] }

/-- C4: after every recompute over a non-empty raw tile set, each raw key
(x, y) appears in the local dict under (x - west, south - y), where west is
the minimum raw x and south the maximum raw y of `tile_ind_bounds`; on the
scenario tiles {(2,3),(4,5)} the recompute succeeds and produces exactly
the local keys {(0,2),(2,0)} — the south-west tile at local (0,0). -/
theorem reindex_remaps_raw_keys :
    (∀ (m : MapClass) (b : ℤ × ℤ × ℤ × ℤ),
      tile_ind_bounds (m.raw_image_dict.map Prod.fst) = some b →
      ∀ (x y : ℤ) (v : Image), ((x, y), v) ∈ m.raw_image_dict →
        ∀ m', reindex_tiles m = .ok m' →
          ((x - b.2.2.2, b.2.2.1 - y), v) ∈ m'.image_dict) ∧
    (∃ m', reindex_tiles scenario_map = .ok m') ∧
    (∀ m', reindex_tiles scenario_map = .ok m' →
      m'.image_dict.map Prod.fst = [(0, 2), (2, 0)]) := by
  have hbscen : tile_ind_bounds (scenario_map.raw_image_dict.map Prod.fst) =
      some (3, 4, 5, 2) := by decide
  refine ⟨?_, reindex_tiles_ok_of_bounds scenario_map (3, 4, 5, 2) hbscen, ?_⟩
  · intro m b hb x y v hmem m' hok
    rw [reindex_tiles_image_dict m b hb m' hok]
    exact List.mem_map.mpr ⟨((x, y), v), hmem, rfl⟩
  · intro m' hok
    rw [reindex_tiles_image_dict scenario_map (3, 4, 5, 2) hbscen m' hok]
    decide

end GpxAnalysis
